import Mathlib

/-!
Verification of the `debuglog.measuretime` time-measurement module.

The Python source is shallowly embedded:
* Python `str` values are `List Char`;
* `datetime.datetime` values are `Datetime` structures of calendar components
  (exactly the fields Python's `datetime` carries, `tzinfo` absent as in the source);
* `datetime.timedelta` values are `Int` counts of microseconds (the resolution
  of Python's `timedelta`);
* fallible operations return `Option`;
* the csv layer is modelled at the row level (`List (List (List Char))`), since
  Python's `csv` module round-trips rows of strings verbatim; `csv.writer`
  stringifies non-string cells with `str`, which is applied explicitly here.
-/

namespace DebugLog

/-- Python strings are modelled as lists of characters. -/
abbrev PyStr := List Char

/-! ## Decimal digits, `int()` parsing, and `str` formatting helpers -/

/-- Value of a decimal digit character, `none` for non-digits. -/
def digitVal? (c : Char) : Option Nat :=
  if '0' ≤ c ∧ c ≤ '9' then some (c.toNat - 48) else none

/-- Accumulating decimal parser over a run of digit characters. -/
def parseNatGo (acc : Nat) : List Char → Option Nat
  | [] => some acc
  | c :: cs =>
    match digitVal? c with
    | some d => parseNatGo (10 * acc + d) cs
    | none => none

/-- Parse a non-empty all-digit string as a natural number. -/
def parseNat (l : List Char) : Option Nat :=
  match l with
  | [] => none
  | c :: cs => parseNatGo 0 (c :: cs)

/-- Python `int(x)` on the strings this module feeds it: an optional sign
followed by at least one decimal digit.  (Python additionally strips
whitespace and allows digit-group underscores; no string produced by
`str(timedelta)` or `str(datetime)` contains those, so they are omitted.) -/
def pyInt (x : List Char) : Option Int :=
  match x with
  | [] => none
  | c :: cs =>
    if c = '-' then (parseNat cs).map (fun n => -(n : Int))
    else if c = '+' then (parseNat cs).map (fun n => (n : Int))
    else (parseNat x).map (fun n => (n : Int))

/-- Python `s.split(sep)` for a single-character separator:
`"" .split c = [""]`, and separators delimit (possibly empty) fields. -/
def pySplit (sep : Char) : List Char → List (List Char)
  | [] => [[]]
  | c :: cs =>
    let r := pySplit sep cs
    if c = sep then [] :: r
    else
      match r with
      | [] => [[c]]
      | h :: t => (c :: h) :: t

/-- Python `list.index(x)`: index of the first occurrence, `none` when absent
(where the source would raise `ValueError`). -/
def pyIndex {α : Type} [DecidableEq α] (x : α) : List α → Option Nat
  | [] => none
  | a :: t => if a = x then some 0 else (pyIndex x t).map (fun n => n + 1)

/-- Fuelled worker for decimal rendering; the fuel only bounds the digit
count (any fuel at least the digit count gives the same result). -/
def decCharsAux : Nat → Nat → List Char
  | 0, _ => []
  | fuel + 1, n =>
    if n < 10 then [Nat.digitChar n]
    else decCharsAux fuel (n / 10) ++ [Nat.digitChar (n % 10)]

/-- Unpadded decimal rendering of a natural number (`"%d"`); `n + 1` units
of fuel always cover the digit count of `n`. -/
def decChars (n : Nat) : List Char := decCharsAux (n + 1) n

/-- Decimal rendering of an integer, with a minus sign when negative. -/
def intDec (i : Int) : List Char :=
  match i with
  | Int.ofNat n => decChars n
  | Int.negSucc n => '-' :: decChars (n + 1)

/-- Two-digit zero-padded decimal (`"%02d"` for values below 100). -/
def pad2 (n : Nat) : List Char :=
  [Nat.digitChar (n / 10 % 10), Nat.digitChar (n % 10)]

/-- Four-digit zero-padded decimal (`"%04d"` for values below 10000). -/
def pad4 (n : Nat) : List Char :=
  [Nat.digitChar (n / 1000 % 10), Nat.digitChar (n / 100 % 10),
   Nat.digitChar (n / 10 % 10), Nat.digitChar (n % 10)]

/-- Six-digit zero-padded decimal (`"%06d"` for values below 1000000),
used for the microsecond field of `str(datetime)` and `str(timedelta)`. -/
def pad6 (n : Nat) : List Char :=
  [Nat.digitChar (n / 100000 % 10), Nat.digitChar (n / 10000 % 10),
   Nat.digitChar (n / 1000 % 10), Nat.digitChar (n / 100 % 10),
   Nat.digitChar (n / 10 % 10), Nat.digitChar (n % 10)]

/-! ## Datetimes (`datetime.datetime`, no tzinfo) -/

/-- A Python `datetime.datetime` value: the calendar components it stores. -/
structure Datetime where
  year : Nat
  month : Nat
  day : Nat
  hour : Nat
  minute : Nat
  second : Nat
  micro : Nat
deriving DecidableEq, Repr

/-- Gregorian leap-year rule (Python `calendar.isleap`). -/
def isLeap (y : Nat) : Bool :=
  (y % 4 = 0 && y % 100 != 0) || y % 400 = 0

/-- Days in a month of the proleptic Gregorian calendar. -/
def daysInMonth (y m : Nat) : Nat :=
  if m = 2 then (if isLeap y then 29 else 28)
  else if m = 4 ∨ m = 6 ∨ m = 9 ∨ m = 11 then 30
  else 31

/-- Range constraints enforced by Python's `datetime` constructor. -/
def validDatetime (c : Datetime) : Prop :=
  1 ≤ c.year ∧ c.year ≤ 9999 ∧ 1 ≤ c.month ∧ c.month ≤ 12 ∧
  1 ≤ c.day ∧ c.day ≤ daysInMonth c.year c.month ∧
  c.hour ≤ 23 ∧ c.minute ≤ 59 ∧ c.second ≤ 59 ∧ c.micro ≤ 999999

instance (c : Datetime) : Decidable (validDatetime c) := by
  unfold validDatetime; infer_instance

/-- Python `str(datetime)` (equivalently `isoformat(' ')`):
`YYYY-MM-DD HH:MM:SS`, with `.ffffff` appended exactly when the microsecond
component is nonzero. -/
def dtToString (c : Datetime) : List Char :=
  pad4 c.year ++ ('-' :: (pad2 c.month ++ ('-' :: (pad2 c.day ++
  (' ' :: (pad2 c.hour ++ (':' :: (pad2 c.minute ++ (':' :: (pad2 c.second ++
  (if c.micro = 0 then [] else '.' :: pad6 c.micro)))))))))))

/-- Consume two characters as a two-digit number. -/
def take2 (l : List Char) : Option (Nat × List Char) :=
  match l with
  | a :: b :: r => (parseNat [a, b]).map (fun n => (n, r))
  | _ => none

/-- Consume four characters as a four-digit number. -/
def take4 (l : List Char) : Option (Nat × List Char) :=
  match l with
  | a :: b :: c :: d :: r => (parseNat [a, b, c, d]).map (fun n => (n, r))
  | _ => none

/-- Consume one expected literal character. -/
def expectChar (c : Char) (l : List Char) : Option (List Char) :=
  match l with
  | [] => none
  | x :: xs => if x = c then some xs else none

/-- Range-check and build a `Datetime` (the constructor validation that
`datetime.fromisoformat` performs). -/
def mkValid (y mo dy h mi s us : Nat) : Option Datetime :=
  if validDatetime ⟨y, mo, dy, h, mi, s, us⟩ then some ⟨y, mo, dy, h, mi, s, us⟩
  else none

/-- Python `datetime.fromisoformat` on the format family `isoformat` emits:
`YYYY-MM-DD[<sep>HH:MM:SS[.fff|.ffffff]]` (any single separator character,
fractional part of exactly three or six digits). -/
def fromIso (l : List Char) : Option Datetime := do
  let (y, s1) ← take4 l
  let s2 ← expectChar '-' s1
  let (mo, s3) ← take2 s2
  let s4 ← expectChar '-' s3
  let (dy, s5) ← take2 s4
  match s5 with
  | [] => mkValid y mo dy 0 0 0 0
  | _sep :: s6 => do
    let (h, s7) ← take2 s6
    let s8 ← expectChar ':' s7
    let (mi, s9) ← take2 s8
    let s10 ← expectChar ':' s9
    let (sec, s11) ← take2 s10
    match s11 with
    | [] => mkValid y mo dy h mi sec 0
    | '.' :: ds => do
      let us ← parseNat ds
      if ds.length = 6 then mkValid y mo dy h mi sec us
      else if ds.length = 3 then mkValid y mo dy h mi sec (us * 1000)
      else none
    | _ => none

/-! ## Calendar arithmetic

`datetime` subtraction and `datetime + timedelta` (used by `record_split`,
`end` and the `Time` column of `to_csv`) go through a days-since-epoch
conversion (proleptic Gregorian, as Python implements).  No theorem below
depends on an inverse property of this pair: the only datetime values that
are ever re-parsed are printed directly from their components. -/

/-- Days from 1970-01-01 to the given civil date (proleptic Gregorian). -/
def civilToDays (y m d : Nat) : Int :=
  let yAdj : Int := (y : Int) - (if m ≤ 2 then 1 else 0)
  let era : Int := Int.fdiv yAdj 400
  let yoe : Nat := (yAdj - era * 400).toNat
  let mp : Nat := (m + 9) % 12
  let doy : Nat := (153 * mp + 2) / 5 + d - 1
  let doe : Nat := yoe * 365 + yoe / 4 - yoe / 100 + doy
  era * 146097 + (doe : Int) - 719468

/-- Civil date from days since 1970-01-01 (inverse direction). -/
def daysToCivil (z : Int) : Nat × Nat × Nat :=
  let z2 := z + 719468
  let era := Int.fdiv z2 146097
  let doe : Nat := (z2 - era * 146097).toNat
  let yoe : Nat := (doe - doe / 1460 + doe / 36524 - doe / 146096) / 365
  let doy : Nat := doe - (365 * yoe + yoe / 4 - yoe / 100)
  let mp : Nat := (5 * doy + 2) / 153
  let d : Nat := doy - (153 * mp + 2) / 5 + 1
  let m : Nat := if mp < 10 then mp + 3 else mp - 9
  (((yoe : Int) + era * 400 + (if m ≤ 2 then 1 else 0)).toNat, m, d)

/-- Microseconds from the epoch to a datetime value. -/
def toEpoch (c : Datetime) : Int :=
  civilToDays c.year c.month c.day * 86400000000 +
    (((c.hour * 3600 + c.minute * 60 + c.second) * 1000000 + c.micro : Nat) : Int)

/-- Datetime from microseconds since the epoch. -/
def fromEpoch (e : Int) : Datetime :=
  let days := Int.fdiv e 86400000000
  let r : Nat := (e - days * 86400000000).toNat
  let ymd := daysToCivil days
  ⟨ymd.1, ymd.2.1, ymd.2.2,
   r / 1000000 / 3600, r / 1000000 % 3600 / 60, r / 1000000 % 60, r % 1000000⟩

/-- Python `datetime - datetime`, as a timedelta in microseconds. -/
def dtSub (a b : Datetime) : Int := toEpoch a - toEpoch b

/-- Python `datetime + timedelta`. -/
def dtAdd (c : Datetime) (t : Int) : Datetime := fromEpoch (toEpoch c + t)

/-! ## Timedelta formatting (`str(timedelta)`) -/

/-- Normalize a timedelta (microseconds) into Python's internal
`(days, microseconds-within-day)` form with the remainder in
`[0, 86400000000)`, as `timedelta` stores it. -/
def tdComponents (t : Int) : Int × Nat :=
  match t with
  | Int.ofNat n => (Int.ofNat (n / 86400000000), n % 86400000000)
  | Int.negSucc n =>
    let q : Nat := (n + 86400000000) / 86400000000
    (-(q : Int), q * 86400000000 - (n + 1))

/-- Python `str(timedelta)`: `H:MM:SS`, with hours unpadded, `.ffffff`
appended exactly when the microsecond part is nonzero, and a
`D day[s], ` prefix exactly when the normalized day count is nonzero. -/
def tdToString (t : Int) : List Char :=
  let c := tdComponents t
  let days := c.1
  let sec := c.2 / 1000000
  let us := c.2 % 1000000
  let core := decChars (sec / 3600) ++ (':' :: (pad2 (sec % 3600 / 60) ++
    (':' :: (pad2 (sec % 60) ++ (if us = 0 then [] else '.' :: pad6 us)))))
  if days = 0 then core
  else intDec days ++
    (if days = 1 ∨ days = -1 then " day, ".toList else " days, ".toList) ++ core

/-! ## Core data model (`TimeMeasurer` and its records) -/

/-- Keys of the class-level `_measurers` dict.  Python uses the `None`
singleton, strings, and (via `__init__`'s self-registration when no name is
given) the integer id as keys of the same dict. -/
inductive PyKey where
  | pynone
  | str (s : PyStr)
  | int (n : Nat)
deriving DecidableEq, Repr

/-- Dict key for an `Optional[str]` name argument. -/
def keyOf (name : Option PyStr) : PyKey :=
  match name with
  | none => PyKey.pynone
  | some s => PyKey.str s

/-- The `Splittime` namedtuple: event identifier (a Python value that is a
string or `None`) and elapsed time since start (timedelta, microseconds). -/
structure Splittime where
  event : Option PyStr
  time : Int
deriving DecidableEq, Repr

/-- The `Laptime` namedtuple: event identifier and elapsed time since the
previous record (timedelta, microseconds). -/
structure Laptime where
  event : Option PyStr
  time : Int
deriving DecidableEq, Repr

/-- Instance state of one `TimeMeasurer`: its `__name`, `__start` and
`__splittimes` fields (`__id` is kept separately as the heap address). -/
structure TimeMeasurer where
  name : PyKey
  start : Datetime
  splittimes : List Splittime
deriving DecidableEq, Repr

/-- Column/label constants of the csv format. -/
def COL_EVTNAME : PyStr := "Event".toList

/-- Column label of the absolute-time column. -/
def COL_TIME : PyStr := "Time".toList

/-- Column label of the split-duration column. -/
def COL_SPLITTIME : PyStr := "SplitTime".toList

/-- Column label of the lap-duration column. -/
def COL_LAPTIME : PyStr := "LapTime".toList

/-- Event label of the start row. -/
def ROW_START_EVT : PyStr := "Start".toList

/-- The csv header row written by `to_csv`. -/
def headerRow : List PyStr := [COL_EVTNAME, COL_TIME, COL_SPLITTIME, COL_LAPTIME]

/-- Python `str` applied to a string-or-None value (as `csv.writer` does to
each cell): `str(None)` is the string `"None"`. -/
def pyStr (o : Option PyStr) : PyStr :=
  match o with
  | none => "None".toList
  | some s => s

/-- `record_split`: appends `Splittime(str(len(splittimes)) if event is None
else event, now - start)` and returns the appended record. -/
def recordSplit (m : TimeMeasurer) (event : Option PyStr) (now : Datetime) :
    TimeMeasurer × Splittime :=
  let sp : Splittime :=
    { event :=
        match event with
        | none => some (decChars m.splittimes.length)
        | some e => some e
      time := dtSub now m.start }
  ({ m with splittimes := m.splittimes ++ [sp] }, sp)

/-- The loop of `get_laptime`, carrying the previous split's elapsed time
(`prev`, initially zero). -/
def laptimesFrom (prev : Int) : List Splittime → List Laptime
  | [] => []
  | sp :: t => ⟨sp.event, sp.time - prev⟩ :: laptimesFrom sp.time t

/-- `get_laptime`: lap times in insertion order (the generator, fully
elaborated into the list it yields). -/
def getLaptime (m : TimeMeasurer) : List Laptime :=
  laptimesFrom 0 m.splittimes

/-- The `end` property: `start + splittimes[-1].time`, or `start` when the
index raises `IndexError`. -/
def endTime (m : TimeMeasurer) : Datetime :=
  match m.splittimes.getLast? with
  | some sp => dtAdd m.start sp.time
  | none => m.start

/-- The `totaltime` property: `end - start`. -/
def totaltime (m : TimeMeasurer) : Int :=
  dtSub (endTime m) m.start

/-- `__add__`: `ret = deepcopy(self)` followed by
`return ret.__splittimes.extend(other.__splittimes)`.  `list.extend`
mutates `ret` and evaluates to Python `None`, and that `None` is the value
`__add__` returns (the extended copy is discarded). -/
def addMeasurer (self other : TimeMeasurer) : Option TimeMeasurer :=
  let _ret := { self with splittimes := self.splittimes ++ other.splittimes }
  none

/-- `__iadd__`: `return self.__splittimes.extend(other.__splittimes)`.
The first component is `self` after the in-place `extend`; the second is
the value returned to Python's `+=` machinery, again `list.extend`'s
result `None`. -/
def iaddMeasurer (self other : TimeMeasurer) : TimeMeasurer × Option TimeMeasurer :=
  ({ self with splittimes := self.splittimes ++ other.splittimes }, none)

/-! ## Serialization (`to_csv` / `from_csv`), at the row level -/

/-- One data row of `to_csv`:
`[lap.event, start + split.time, split.time, lap.time]`, each cell
stringified as `csv.writer` does. -/
def csvRow (start : Datetime) (p : Laptime × Splittime) : List PyStr :=
  [pyStr p.1.event, dtToString (dtAdd start p.2.time),
   tdToString p.2.time, tdToString p.1.time]

/-- `to_csv`, at the row level: header row, start row, then one row per
`zip(get_laptime(), get_splittime())` pair. -/
def toCsvRows (m : TimeMeasurer) : List (List PyStr) :=
  headerRow ::
  [ROW_START_EVT, dtToString m.start, "-".toList, "-".toList] ::
  ((getLaptime m).zip m.splittimes).map (csvRow m.start)

/-- The `int or (int, int)` results of the duration-field lambda in
`from_csv` (a plain `int(x)` when the field has no dot, otherwise the pair
`(int(whole), int(frac))`). -/
inductive IntOrPair where
  | i (n : Int)
  | p (a b : Int)
deriving DecidableEq, Repr

/-- The per-field lambda of `from_csv`:
`int(x) if '.' not in x else (int(x.split('.')[0]), int(x.split('.')[1]))`. -/
def parsePart (x : PyStr) : Option IntOrPair :=
  if '.' ∈ x then
    match pySplit '.' x with
    | p0 :: p1 :: _ => do
      let a ← pyInt p0
      let b ← pyInt p1
      pure (IntOrPair.p a b)
    | _ => none
  else (pyInt x).map IntOrPair.i

/-- Parsing one `SplitTime` cell in `from_csv`'s row loop: split on `':'`,
unpack exactly three fields through the lambda, move the fractional part of
the seconds field into microseconds, and build
`timedelta(hours, minutes, seconds, microseconds)` (which raises `TypeError`,
modelled `none`, if the hours or minutes field parsed as a pair). -/
def parseDuration (x : PyStr) : Option Int :=
  match pySplit ':' x with
  | [xh, xm, xs] => do
    let h ← parsePart xh
    let m ← parsePart xm
    let s ← parsePart xs
    let sm : Int × Int :=
      match s with
      | IntOrPair.p a b => (a, b)
      | IntOrPair.i n => (n, 0)
    match h, m with
    | IntOrPair.i hh, IntOrPair.i mm =>
      some ((hh * 3600 + mm * 60 + sm.1) * 1000000 + sm.2)
    | _, _ => none
  | _ => none

/-- Parsing one event row of `from_csv`: read the `SplitTime` cell (row
indexing may raise `IndexError`), parse it, read the `Event` cell, and build
the `Splittime` record. -/
def parseEvtRow (iEvt iStime : Nat) (row : List PyStr) : Option Splittime := do
  let cell ← row.get? iStime
  let t ← parseDuration cell
  let e ← row.get? iEvt
  pure (Splittime.mk (some e) t)

/-- Effect-free `mapM` over `Option`, mirroring `from_csv`'s row loop
(the first failing row aborts the whole call). -/
def optMapM {α β : Type} (f : α → Option β) : List α → Option (List β)
  | [] => some []
  | a :: t => do
    let b ← f a
    let bs ← optMapM f t
    pure (b :: bs)

/-- The pure reading phase of `from_csv` (lines up to the loop's end): locate
the three columns in the header, take the start row, parse every following
row into `Splittime` records, and return the raw start-cell string together
with the records.  (`dt.fromisoformat` runs later, after `get_measurer()`.) -/
def fromCsvScan (rows : List (List PyStr)) : Option (PyStr × List Splittime) :=
  match rows with
  | [] => none
  | head :: rest =>
    match pyIndex COL_EVTNAME head, pyIndex COL_TIME head, pyIndex COL_SPLITTIME head with
    | some iEvt, some iTime, some iStime =>
      match rest with
      | [] => none
      | startRow :: evtRows => do
        let evts ← optMapM (parseEvtRow iEvt iStime) evtRows
        let stStr ← startRow.get? iTime
        pure (stStr, evts)
    | _, _, _ => none

/-- The data `from_csv` computes for the measurer it mutates: the parsed
start datetime and the parsed splittime list. -/
def fromCsvData (rows : List (List PyStr)) : Option (Datetime × List Splittime) :=
  match fromCsvScan rows with
  | none => none
  | some (stStr, evts) =>
    match fromIso stStr with
    | none => none
    | some st => some (st, evts)

/-! ## Registry state machine

The class attribute `_measurers` is a process-wide dict from keys to
`TimeMeasurer` objects.  Object identity and in-place mutation are modelled
with a heap: `store` maps object ids (the `__id` counter values, which are
unique) to instance states, and `registry` maps dict keys to object ids.
Each `dt.now()` call site takes the current time as an explicit argument. -/

/-- First-match association-list lookup (dict read). -/
def alistGet {κ ν : Type} [DecidableEq κ] (k : κ) : List (κ × ν) → Option ν
  | [] => none
  | p :: t => if p.1 = k then some p.2 else alistGet k t

/-- Association-list update-or-append (dict write). -/
def alistSet {κ ν : Type} [DecidableEq κ] (k : κ) (v : ν) :
    List (κ × ν) → List (κ × ν)
  | [] => [(k, v)]
  | p :: t => if p.1 = k then (k, v) :: t else p :: alistSet k v t

/-- Association-list key removal (dict `pop`'s deletion; keys are unique in
a dict, so removing every binding of the key models it). -/
def alistRemove {κ ν : Type} [DecidableEq κ] (k : κ) :
    List (κ × ν) → List (κ × ν)
  | [] => []
  | p :: t => if p.1 = k then alistRemove k t else p :: alistRemove k t

/-- Process-wide state: the `__leatest_id` counter, the object heap, and the
`_measurers` dict. -/
structure State where
  latestId : Nat
  store : List (Nat × TimeMeasurer)
  registry : List (PyKey × Nat)
deriving DecidableEq, Repr

/-- The `self.__name` computation of `__init__`:
`self.__id if name is None else name`. -/
def autoName (name : Option PyStr) (i : Nat) : PyKey :=
  match name with
  | none => PyKey.int i
  | some n => PyKey.str n

/-- `TimeMeasurer.__init__`: draw a fresh id, set the name (the id itself
when the argument is `None`), set `start` to now with no splittimes, and
self-register in `_measurers` under `self.name`.  Returns the new object's
id. -/
def initMeasurer (name : Option PyStr) (now : Datetime) (s : State) : State × Nat :=
  let i := s.latestId
  let nm : PyKey := autoName name i
  (⟨i + 1, alistSet i ⟨nm, now, []⟩ s.store, alistSet nm i s.registry⟩, i)

/-- `get_measurer`: return the registered measurer for `name`, creating and
registering a new one when absent. -/
def getMeasurer (name : Option PyStr) (now : Datetime) (s : State) : State × Nat :=
  match alistGet (keyOf name) s.registry with
  | some i => (s, i)
  | none =>
    let r := initMeasurer name now s
    ({ r.1 with registry := alistSet (keyOf name) r.2 r.1.registry }, r.2)

/-- `TimeMeasurer.pop` / `pop_measurer`: `_measurers.pop(name, None)` —
remove and return the binding, or `None` when absent; the object itself
survives on the heap for the caller. -/
def popMeasurer (name : Option PyStr) (s : State) : State × Option Nat :=
  (⟨s.latestId, s.store, alistRemove (keyOf name) s.registry⟩,
   alistGet (keyOf name) s.registry)

/-- `record_split` invoked on the heap object `i` (mutates it in place).
A dangling id leaves the state unchanged; reachable states never have one. -/
def recordSplitOn (i : Nat) (event : Option PyStr) (now : Datetime) (s : State) :
    State :=
  match alistGet i s.store with
  | none => s
  | some m => { s with store := alistSet i (recordSplit m event now).1 s.store }

/-- One invocation of a callable wrapped by `time_record(name)`.  `fres` is
the wrapped callable's outcome (normal return or raised exception); `now0`
is the time of the potential `TimeMeasurer` creation inside `get_measurer`,
`now1`/`now2` the times of the two `record_split` calls.  An exception
propagates before the `_end` record is written. -/
def timeRecordCall {E B : Type} (name : Option PyStr) (qual : PyStr)
    (fres : Except E B) (now0 now1 now2 : Datetime) (s : State) :
    State × Except E B :=
  let r := getMeasurer name now0 s
  let s2 := recordSplitOn r.2 (some (qual ++ "_start".toList)) now1 r.1
  match fres with
  | Except.error e => (s2, Except.error e)
  | Except.ok v =>
    (recordSplitOn r.2 (some (qual ++ "_end".toList)) now2 s2, Except.ok v)

/-- The full `from_csv` classmethod: run the reading phase, then
`self = get_measurer()` (key `None`), then `dt.fromisoformat` on the start
cell (an exception here propagates after the measurer was fetched/created),
then overwrite `self.__start` and `self.__splittimes` in place.  Returns the
id of the measurer it returned, or `none` where Python raises. -/
def fromCsvOp (rows : List (List PyStr)) (now : Datetime) (s : State) :
    State × Option Nat :=
  match fromCsvScan rows with
  | none => (s, none)
  | some (stStr, evts) =>
    let r := getMeasurer none now s
    match fromIso stStr with
    | none => (r.1, none)
    | some st =>
      match alistGet r.2 r.1.store with
      | none => (r.1, none)
      | some m =>
        ({ r.1 with
            store := alistSet r.2 { m with start := st, splittimes := evts } r.1.store },
         some r.2)

/-- The ledger registered under `k`, dereferenced through the heap. -/
def lookupLedger (s : State) (k : PyKey) : Option TimeMeasurer :=
  match alistGet k s.registry with
  | none => none
  | some i => alistGet i s.store

/-- Splittimes of the ledger registered under `k` (empty when absent). -/
def priorSplits (s : State) (k : PyKey) : List Splittime :=
  match lookupLedger s k with
  | none => []
  | some m => m.splittimes

/-- Registry/heap coherence at one key: if the key is registered, the heap
holds the object it points to. -/
def wfAtKey (s : State) (k : PyKey) : Bool :=
  match alistGet k s.registry with
  | none => true
  | some i => (alistGet i s.store).isSome

/-! ## Lemmas about digits and number parsing -/

theorem digitVal_digitChar : ∀ d, d < 10 → digitVal? (Nat.digitChar d) = some d := by
  decide

theorem digitChar_ne_colon : ∀ d, d < 10 → Nat.digitChar d ≠ ':' := by decide

theorem digitChar_ne_dot : ∀ d, d < 10 → Nat.digitChar d ≠ '.' := by decide

theorem digitChar_ne_minus : ∀ d, d < 10 → Nat.digitChar d ≠ '-' := by decide

theorem digitChar_ne_plus : ∀ d, d < 10 → Nat.digitChar d ≠ '+' := by decide

theorem parseNatGo_digit (acc d : Nat) (l : List Char) (hd : d < 10) :
    parseNatGo acc (Nat.digitChar d :: l) = parseNatGo (10 * acc + d) l := by
  simp [parseNatGo, digitVal_digitChar d hd]

theorem parseNat_one (a : Nat) (ha : a < 10) :
    parseNat [Nat.digitChar a] = some a := by
  rw [parseNat, parseNatGo_digit _ _ _ ha]
  simp [parseNatGo]

theorem parseNat_two (a b : Nat) (ha : a < 10) (hb : b < 10) :
    parseNat [Nat.digitChar a, Nat.digitChar b] = some (10 * a + b) := by
  rw [parseNat, parseNatGo_digit _ _ _ ha, parseNatGo_digit _ _ _ hb]
  simp [parseNatGo]

theorem parseNat_pad2 (n : Nat) (h : n < 100) : parseNat (pad2 n) = some n := by
  rw [pad2, parseNat,
    parseNatGo_digit _ _ _ (Nat.mod_lt _ (by norm_num)),
    parseNatGo_digit _ _ _ (Nat.mod_lt _ (by norm_num))]
  simp only [parseNatGo, Option.some.injEq]
  omega

theorem parseNat_pad4 (n : Nat) (h : n < 10000) : parseNat (pad4 n) = some n := by
  rw [pad4, parseNat,
    parseNatGo_digit _ _ _ (Nat.mod_lt _ (by norm_num)),
    parseNatGo_digit _ _ _ (Nat.mod_lt _ (by norm_num)),
    parseNatGo_digit _ _ _ (Nat.mod_lt _ (by norm_num)),
    parseNatGo_digit _ _ _ (Nat.mod_lt _ (by norm_num))]
  simp only [parseNatGo, Option.some.injEq]
  omega

theorem parseNat_pad6 (n : Nat) (h : n < 1000000) : parseNat (pad6 n) = some n := by
  rw [pad6, parseNat,
    parseNatGo_digit _ _ _ (Nat.mod_lt _ (by norm_num)),
    parseNatGo_digit _ _ _ (Nat.mod_lt _ (by norm_num)),
    parseNatGo_digit _ _ _ (Nat.mod_lt _ (by norm_num)),
    parseNatGo_digit _ _ _ (Nat.mod_lt _ (by norm_num)),
    parseNatGo_digit _ _ _ (Nat.mod_lt _ (by norm_num)),
    parseNatGo_digit _ _ _ (Nat.mod_lt _ (by norm_num))]
  simp only [parseNatGo, Option.some.injEq]
  omega

theorem decChars_lt100 (n : Nat) (h : n < 100) :
    decChars n =
      if n < 10 then [Nat.digitChar n]
      else [Nat.digitChar (n / 10), Nat.digitChar (n % 10)] := by
  by_cases h10 : n < 10
  · simp [decChars, decCharsAux, h10]
  · obtain ⟨m, rfl⟩ : ∃ m, n = m + 1 := ⟨n - 1, by omega⟩
    have hq : (m + 1) / 10 < 10 := by omega
    simp [decChars, decCharsAux, h10, hq]

theorem parseNat_decChars (n : Nat) (h : n < 100) :
    parseNat (decChars n) = some n := by
  rw [decChars_lt100 n h]
  by_cases h10 : n < 10
  · simp only [h10, if_true]
    exact parseNat_one n h10
  · simp only [h10, if_false]
    rw [parseNat_two _ _ (by omega) (Nat.mod_lt _ (by norm_num))]
    congr 1
    omega

theorem decCharsAux_chars (fuel : Nat) :
    ∀ n, ∀ c ∈ decCharsAux fuel n, ∃ d, d < 10 ∧ c = Nat.digitChar d := by
  induction fuel with
  | zero =>
    intro n c hc
    simp [decCharsAux] at hc
  | succ f ih =>
    intro n c hc
    by_cases h : n < 10
    · simp [decCharsAux, h] at hc
      exact ⟨n, h, hc⟩
    · simp only [decCharsAux, if_neg h, List.mem_append, List.mem_singleton] at hc
      rcases hc with hc | hc
      · exact ih (n / 10) c hc
      · exact ⟨n % 10, Nat.mod_lt _ (by norm_num), hc⟩

theorem decChars_chars (n : Nat) :
    ∀ c ∈ decChars n, ∃ d, d < 10 ∧ c = Nat.digitChar d :=
  decCharsAux_chars (n + 1) n

theorem colon_not_mem_decChars (n : Nat) : ':' ∉ decChars n := by
  intro hmem
  obtain ⟨d, hd, he⟩ := decChars_chars n ':' hmem
  exact digitChar_ne_colon d hd he.symm

theorem dot_not_mem_decChars (n : Nat) : '.' ∉ decChars n := by
  intro hmem
  obtain ⟨d, hd, he⟩ := decChars_chars n '.' hmem
  exact digitChar_ne_dot d hd he.symm

theorem colon_not_mem_pad2 (n : Nat) : ':' ∉ pad2 n := by
  simp only [pad2, List.mem_cons, List.not_mem_nil]
  push_neg
  refine ⟨?_, ?_, ?_⟩
  · exact fun e => digitChar_ne_colon _ (Nat.mod_lt _ (by norm_num)) e.symm
  · exact fun e => digitChar_ne_colon _ (Nat.mod_lt _ (by norm_num)) e.symm
  · exact fun e => e.elim

theorem dot_not_mem_pad2 (n : Nat) : '.' ∉ pad2 n := by
  simp only [pad2, List.mem_cons, List.not_mem_nil]
  push_neg
  refine ⟨?_, ?_, ?_⟩
  · exact fun e => digitChar_ne_dot _ (Nat.mod_lt _ (by norm_num)) e.symm
  · exact fun e => digitChar_ne_dot _ (Nat.mod_lt _ (by norm_num)) e.symm
  · exact fun e => e.elim

theorem dot_not_mem_pad6 (n : Nat) : '.' ∉ pad6 n := by
  simp only [pad6, List.mem_cons, List.not_mem_nil]
  push_neg
  refine ⟨?_, ?_, ?_, ?_, ?_, ?_, ?_⟩ <;>
    first
      | exact fun e => digitChar_ne_dot _ (Nat.mod_lt _ (by norm_num)) e.symm
      | exact fun e => e.elim

theorem pyInt_digit_head (d : Nat) (hd : d < 10) (rest : List Char) :
    pyInt (Nat.digitChar d :: rest) =
      (parseNat (Nat.digitChar d :: rest)).map (fun n => (n : Int)) := by
  simp [pyInt, digitChar_ne_minus d hd, digitChar_ne_plus d hd]

/-! ## Lemmas about `pySplit` -/

theorem pySplit_not_mem (sep : Char) (a : List Char) (h : sep ∉ a) :
    pySplit sep a = [a] := by
  induction a with
  | nil => rfl
  | cons c cs ih =>
    have hc : ¬(c = sep) := fun e => h (by simp [e])
    have hcs : sep ∉ cs := fun m => h (List.mem_cons_of_mem _ m)
    simp [pySplit, hc, ih hcs]

theorem pySplit_append (sep : Char) (a r : List Char) (h : sep ∉ a) :
    pySplit sep (a ++ sep :: r) = a :: pySplit sep r := by
  induction a with
  | nil => simp [pySplit]
  | cons c cs ih =>
    have hc : ¬(c = sep) := fun e => h (by simp [e])
    have hcs : sep ∉ cs := fun m => h (List.mem_cons_of_mem _ m)
    simp only [List.cons_append, pySplit, if_neg hc, List.append_eq, ih hcs]

theorem colon_not_mem_pad6 (n : Nat) : ':' ∉ pad6 n := by
  simp only [pad6, List.mem_cons, List.not_mem_nil]
  push_neg
  refine ⟨?_, ?_, ?_, ?_, ?_, ?_, ?_⟩ <;>
    first
      | exact fun e => digitChar_ne_colon _ (Nat.mod_lt _ (by norm_num)) e.symm
      | exact fun e => e.elim

theorem pyInt_decChars (n : Nat) (h : n < 100) : pyInt (decChars n) = some (n : Int) := by
  rw [decChars_lt100 n h]
  by_cases h10 : n < 10
  · simp only [h10, if_true]
    rw [pyInt_digit_head n h10, parseNat_one n h10]
    rfl
  · simp only [h10, if_false]
    rw [pyInt_digit_head _ (by omega), parseNat_two _ _ (by omega) (Nat.mod_lt _ (by norm_num))]
    exact congrArg some (by omega : ((10 * (n / 10) + n % 10 : Nat) : Int) = (n : Int))

theorem pyInt_pad2 (n : Nat) (h : n < 100) : pyInt (pad2 n) = some (n : Int) := by
  have e : pad2 n = Nat.digitChar (n / 10 % 10) :: [Nat.digitChar (n % 10)] := rfl
  rw [e, pyInt_digit_head _ (Nat.mod_lt _ (by norm_num)), ← e, parseNat_pad2 n h]
  rfl

theorem pyInt_pad6 (n : Nat) (h : n < 1000000) : pyInt (pad6 n) = some (n : Int) := by
  have e : pad6 n = Nat.digitChar (n / 100000 % 10) ::
      [Nat.digitChar (n / 10000 % 10), Nat.digitChar (n / 1000 % 10),
       Nat.digitChar (n / 100 % 10), Nat.digitChar (n / 10 % 10),
       Nat.digitChar (n % 10)] := rfl
  rw [e, pyInt_digit_head _ (Nat.mod_lt _ (by norm_num)), ← e, parseNat_pad6 n h]
  rfl

theorem parsePart_decChars (n : Nat) (h : n < 100) :
    parsePart (decChars n) = some (IntOrPair.i (n : Int)) := by
  rw [parsePart, if_neg (dot_not_mem_decChars n), pyInt_decChars n h]
  rfl

theorem parsePart_pad2 (n : Nat) (h : n < 100) :
    parsePart (pad2 n) = some (IntOrPair.i (n : Int)) := by
  rw [parsePart, if_neg (dot_not_mem_pad2 n), pyInt_pad2 n h]
  rfl

theorem parsePart_pad2_pad6 (a b : Nat) (ha : a < 100) (hb : b < 1000000) :
    parsePart (pad2 a ++ '.' :: pad6 b) = some (IntOrPair.p (a : Int) (b : Int)) := by
  have hmem : '.' ∈ pad2 a ++ '.' :: pad6 b :=
    List.mem_append_right _ (List.mem_cons_self _ _)
  rw [parsePart, if_pos hmem,
    pySplit_append _ _ _ (dot_not_mem_pad2 a),
    pySplit_not_mem _ _ (dot_not_mem_pad6 b)]
  simp [pyInt_pad2 a ha, pyInt_pad6 b hb]

/-- Round trip of the duration serialization: for a nonnegative timedelta
below one day, `from_csv`'s field parser recovers exactly the value that
`str(timedelta)` printed. -/
theorem parseDuration_tdToString (t : Int) (h0 : 0 ≤ t) (h1 : t < 86400000000) :
    parseDuration (tdToString t) = some t := by
  obtain ⟨n, rfl⟩ := Int.eq_ofNat_of_zero_le h0
  have hn : n < 86400000000 := by exact_mod_cast h1
  have hcore : tdToString ((n : Nat) : Int) =
      decChars (n / 1000000 / 3600) ++ (':' ::
      (pad2 (n / 1000000 % 3600 / 60) ++ (':' ::
      (pad2 (n / 1000000 % 60) ++
      (if n % 1000000 = 0 then [] else '.' :: pad6 (n % 1000000)))))) := by
    show tdToString (Int.ofNat n) = _
    simp only [tdToString, tdComponents, Nat.div_eq_of_lt hn, Nat.mod_eq_of_lt hn]
    norm_num
  rw [hcore]
  have hhh : n / 1000000 / 3600 < 24 := by omega
  have hmm : n / 1000000 % 3600 / 60 < 60 := by omega
  have hss : n / 1000000 % 60 < 60 := by omega
  have hus : n % 1000000 < 1000000 := by omega
  by_cases h0us : n % 1000000 = 0
  · rw [if_pos h0us, List.append_nil]
    have hsplit : pySplit ':'
        (decChars (n / 1000000 / 3600) ++ ':' ::
         (pad2 (n / 1000000 % 3600 / 60) ++ ':' :: pad2 (n / 1000000 % 60))) =
        [decChars (n / 1000000 / 3600), pad2 (n / 1000000 % 3600 / 60),
         pad2 (n / 1000000 % 60)] := by
      rw [pySplit_append _ _ _ (colon_not_mem_decChars _),
        pySplit_append _ _ _ (colon_not_mem_pad2 _),
        pySplit_not_mem _ _ (colon_not_mem_pad2 _)]
    rw [parseDuration, hsplit]
    simp only [parsePart_decChars (n / 1000000 / 3600) (by omega),
      parsePart_pad2 (n / 1000000 % 3600 / 60) (by omega),
      parsePart_pad2 (n / 1000000 % 60) (by omega),
      Option.bind_eq_bind, Option.some_bind, Option.some.injEq]
    omega
  · rw [if_neg h0us]
    have hF : ':' ∉ pad2 (n / 1000000 % 60) ++ '.' :: pad6 (n % 1000000) := by
      intro hc
      rcases List.mem_append.mp hc with hc | hc
      · exact colon_not_mem_pad2 _ hc
      · rcases List.mem_cons.mp hc with hc | hc
        · exact absurd hc (by decide)
        · exact colon_not_mem_pad6 _ hc
    have hsplit : pySplit ':'
        (decChars (n / 1000000 / 3600) ++ ':' ::
         (pad2 (n / 1000000 % 3600 / 60) ++ ':' ::
          (pad2 (n / 1000000 % 60) ++ '.' :: pad6 (n % 1000000)))) =
        [decChars (n / 1000000 / 3600), pad2 (n / 1000000 % 3600 / 60),
         pad2 (n / 1000000 % 60) ++ '.' :: pad6 (n % 1000000)] := by
      rw [pySplit_append _ _ _ (colon_not_mem_decChars _),
        pySplit_append _ _ _ (colon_not_mem_pad2 _),
        pySplit_not_mem _ _ hF]
    rw [parseDuration, hsplit]
    simp only [parsePart_decChars (n / 1000000 / 3600) (by omega),
      parsePart_pad2 (n / 1000000 % 3600 / 60) (by omega),
      parsePart_pad2_pad6 (n / 1000000 % 60) (n % 1000000) (by omega) hus,
      Option.bind_eq_bind, Option.some_bind, Option.some.injEq]
    omega

theorem take4_pad4_append (n : Nat) (r : List Char) :
    take4 (pad4 n ++ r) = (parseNat (pad4 n)).map (fun v => (v, r)) := rfl

theorem take2_pad2_append (n : Nat) (r : List Char) :
    take2 (pad2 n ++ r) = (parseNat (pad2 n)).map (fun v => (v, r)) := rfl

theorem expectChar_cons_self (c : Char) (r : List Char) :
    expectChar c (c :: r) = some r := by
  simp [expectChar]

theorem daysInMonth_le (y m : Nat) : daysInMonth y m ≤ 31 := by
  unfold daysInMonth
  split
  · split <;> norm_num
  · split <;> norm_num

/-- Round trip of the datetime serialization: `fromisoformat` applied to
`str(datetime)` recovers the datetime exactly. -/
theorem fromIso_dtToString (c : Datetime) (h : validDatetime c) :
    fromIso (dtToString c) = some c := by
  obtain ⟨y, mo, dy, hh, mi, ss, us⟩ := c
  have hv : validDatetime ⟨y, mo, dy, hh, mi, ss, us⟩ := h
  simp only [validDatetime] at h
  obtain ⟨h1, h2, h3, h4, h5, h6, h7, h8, h9, h10⟩ := h
  have hdm : daysInMonth y mo ≤ 31 := daysInMonth_le y mo
  simp only [dtToString, fromIso, Option.bind_eq_bind]
  rw [take4_pad4_append, parseNat_pad4 y (by omega)]
  simp only [Option.map_some', Option.some_bind, expectChar_cons_self]
  rw [take2_pad2_append, parseNat_pad2 mo (by omega)]
  simp only [Option.map_some', Option.some_bind, expectChar_cons_self]
  rw [take2_pad2_append, parseNat_pad2 dy (by omega)]
  simp only [Option.map_some', Option.some_bind, expectChar_cons_self]
  rw [take2_pad2_append, parseNat_pad2 hh (by omega)]
  simp only [Option.map_some', Option.some_bind, expectChar_cons_self]
  rw [take2_pad2_append, parseNat_pad2 mi (by omega)]
  simp only [Option.map_some', Option.some_bind, expectChar_cons_self]
  by_cases h0us : us = 0
  · subst h0us
    rw [if_pos rfl, List.append_nil]
    have e2 : pad2 ss = Nat.digitChar (ss / 10 % 10) :: [Nat.digitChar (ss % 10)] := rfl
    rw [e2]
    simp only [take2]
    rw [← e2, parseNat_pad2 ss (by omega)]
    simp only [Option.map_some', Option.some_bind]
    rw [mkValid, if_pos hv]
  · rw [if_neg h0us]
    rw [take2_pad2_append, parseNat_pad2 ss (by omega)]
    simp only [Option.map_some', Option.some_bind]
    rw [show parseNat (pad6 us) = some us from parseNat_pad6 us (by omega)]
    simp only [Option.some_bind]
    have hlen : (pad6 us).length = 6 := rfl
    rw [hlen, if_pos rfl]
    rw [mkValid, if_pos hv]

/-! ## Round trip of `to_csv` / `from_csv` -/

theorem parseEvtRow_csvRow (start : Datetime) (lap : Laptime) (sp : Splittime)
    (hev : lap.event = sp.event) (e : PyStr) (he : sp.event = some e)
    (ht0 : 0 ≤ sp.time) (ht1 : sp.time < 86400000000) :
    parseEvtRow 0 2 (csvRow start (lap, sp)) = some sp := by
  have hg2 : (csvRow start (lap, sp)).get? 2 = some (tdToString sp.time) := rfl
  have hg0 : (csvRow start (lap, sp)).get? 0 = some (pyStr lap.event) := rfl
  rw [parseEvtRow, hg2]
  simp only [Option.bind_eq_bind, Option.some_bind]
  rw [parseDuration_tdToString sp.time ht0 ht1]
  simp only [Option.some_bind]
  rw [hg0, hev, he]
  simp only [pyStr, Option.some_bind]
  cases sp with
  | mk ev t =>
    simp only at he
    simp [he]

theorem optMapM_scan (start : Datetime) (prev : Int) (l : List Splittime)
    (hev : ∀ sp ∈ l, Option.isSome sp.event = true)
    (ht : ∀ sp ∈ l, 0 ≤ sp.time ∧ sp.time < 86400000000) :
    optMapM (parseEvtRow 0 2)
      (((laptimesFrom prev l).zip l).map (csvRow start)) = some l := by
  induction l generalizing prev with
  | nil => rfl
  | cons sp t ih =>
    have hsp := hev sp (List.mem_cons_self _ _)
    obtain ⟨e, he⟩ := Option.isSome_iff_exists.mp hsp
    have htsp := ht sp (List.mem_cons_self _ _)
    simp only [laptimesFrom, List.zip_cons_cons, List.map_cons, optMapM,
      Option.bind_eq_bind]
    rw [parseEvtRow_csvRow start _ sp rfl e he htsp.1 htsp.2]
    simp only [Option.some_bind]
    have ihh := ih sp.time (fun x hx => hev x (List.mem_cons_of_mem _ hx))
      (fun x hx => ht x (List.mem_cons_of_mem _ hx))
    simp only [List.zip] at ihh
    rw [ihh]
    rfl

theorem fromCsvScan_toCsvRows (m : TimeMeasurer)
    (hev : ∀ sp ∈ m.splittimes, Option.isSome sp.event = true)
    (ht : ∀ sp ∈ m.splittimes, 0 ≤ sp.time ∧ sp.time < 86400000000) :
    fromCsvScan (toCsvRows m) = some (dtToString m.start, m.splittimes) := by
  have hidx0 : pyIndex COL_EVTNAME headerRow = some 0 := rfl
  have hidx1 : pyIndex COL_TIME headerRow = some 1 := rfl
  have hidx2 : pyIndex COL_SPLITTIME headerRow = some 2 := rfl
  rw [toCsvRows, fromCsvScan, hidx0, hidx1, hidx2]
  simp only [getLaptime, Option.bind_eq_bind]
  rw [optMapM_scan m.start 0 m.splittimes hev ht]
  simp only [Option.some_bind]
  rfl

/-- Round trip of the full serialization: parsing the rows written by
`to_csv` recovers the start instant exactly and the splittime sequence
(events, order, and microsecond-exact times), provided every recorded
duration is nonnegative and below one day. -/
theorem fromCsvData_toCsvRows (m : TimeMeasurer) (hstart : validDatetime m.start)
    (hev : ∀ sp ∈ m.splittimes, Option.isSome sp.event = true)
    (ht : ∀ sp ∈ m.splittimes, 0 ≤ sp.time ∧ sp.time < 86400000000) :
    fromCsvData (toCsvRows m) = some (m.start, m.splittimes) := by
  rw [fromCsvData, fromCsvScan_toCsvRows m hev ht]
  dsimp only
  rw [fromIso_dtToString m.start hstart]

/-! ## Lemmas about `get_laptime` -/

theorem laptimesFrom_length (prev : Int) (l : List Splittime) :
    (laptimesFrom prev l).length = l.length := by
  induction l generalizing prev with
  | nil => rfl
  | cons sp t ih => simp [laptimesFrom, ih]

theorem laptimesFrom_get?_zero (prev : Int) (l : List Splittime) (sp : Splittime)
    (h : l.get? 0 = some sp) :
    (laptimesFrom prev l).get? 0 = some ⟨sp.event, sp.time - prev⟩ := by
  cases l with
  | nil => simp at h
  | cons a t =>
    simp only [List.get?] at h
    cases h
    rfl

theorem laptimesFrom_get?_succ (prev : Int) (l : List Splittime) (j : Nat)
    (sp q : Splittime) (hq : l.get? j = some q) (h : l.get? (j + 1) = some sp) :
    (laptimesFrom prev l).get? (j + 1) = some ⟨sp.event, sp.time - q.time⟩ := by
  induction l generalizing prev j with
  | nil => simp at h
  | cons a t ih =>
    cases j with
    | zero =>
      have haq : a = q := by
        simp only [List.get?] at hq
        exact Option.some.inj hq
      simp only [List.get?] at h
      show (laptimesFrom a.time t).get? 0 = some ⟨sp.event, sp.time - q.time⟩
      rw [← haq]
      exact laptimesFrom_get?_zero a.time t sp h
    | succ k =>
      simp only [List.get?] at hq h
      exact ih a.time k hq h

theorem laptimesFrom_take_sum (prev : Int) (l : List Splittime) (i : Nat)
    (sp : Splittime) (h : l.get? i = some sp) :
    (((laptimesFrom prev l).take (i + 1)).map Laptime.time).sum = sp.time - prev := by
  induction l generalizing prev i with
  | nil => simp at h
  | cons a t ih =>
    cases i with
    | zero =>
      simp only [List.get?] at h
      cases h
      simp [laptimesFrom]
    | succ k =>
      simp only [List.get?] at h
      have := ih a.time k h
      simp only [laptimesFrom, List.take, List.map_cons, List.sum_cons, this]
      ring

/-! ## Lemmas about the registry dict -/

theorem alistGet_set_self {κ ν : Type} [DecidableEq κ] (k : κ) (v : ν)
    (l : List (κ × ν)) : alistGet k (alistSet k v l) = some v := by
  induction l with
  | nil => simp [alistGet, alistSet]
  | cons p t ih =>
    by_cases h : p.1 = k
    · simp [alistSet, alistGet, h]
    · simp [alistSet, alistGet, h, ih]

theorem alistGet_remove_self {κ ν : Type} [DecidableEq κ] (k : κ)
    (l : List (κ × ν)) : alistGet k (alistRemove k l) = none := by
  induction l with
  | nil => rfl
  | cons p t ih =>
    by_cases h : p.1 = k
    · simp [alistRemove, h, ih]
    · simp [alistRemove, alistGet, h, ih]

theorem alistRemove_not_found {κ ν : Type} [DecidableEq κ] (k : κ)
    (l : List (κ × ν)) (h : alistGet k l = none) : alistRemove k l = l := by
  induction l with
  | nil => rfl
  | cons p t ih =>
    by_cases hp : p.1 = k
    · simp [alistGet, hp] at h
    · simp only [alistGet, if_neg hp] at h
      simp [alistRemove, hp, ih h]

/-- For an absent key, `get_measurer` registers a fresh empty measurer
started now, with id `latestId`, named by the key (or the id itself for the
`None` name). -/
theorem getMeasurer_create (x : Option PyStr) (now : Datetime) (s : State)
    (hnone : alistGet (keyOf x) s.registry = none) :
    lookupLedger (getMeasurer x now s).1 (keyOf x) =
      some ⟨autoName x s.latestId, now, []⟩ ∧
    (getMeasurer x now s).2 = s.latestId ∧
    (getMeasurer x now s).1.latestId = s.latestId + 1 ∧
    alistGet (keyOf x) (getMeasurer x now s).1.registry = some s.latestId ∧
    alistGet s.latestId (getMeasurer x now s).1.store =
      some ⟨autoName x s.latestId, now, []⟩ := by
  simp [getMeasurer, hnone, initMeasurer, lookupLedger, alistGet_set_self]

/-- For a present key, `get_measurer` is a pure lookup. -/
theorem getMeasurer_found (x : Option PyStr) (now : Datetime) (s : State) (i : Nat)
    (h : alistGet (keyOf x) s.registry = some i) :
    getMeasurer x now s = (s, i) := by
  simp [getMeasurer, h]

/-- In a coherent state, `get_measurer` returns an id that is registered
under the key and backed on the heap by a measurer whose splittimes are the
prior splittimes of that key (empty when freshly created). -/
theorem getMeasurer_spec (x : Option PyStr) (now : Datetime) (s : State)
    (hwf : wfAtKey s (keyOf x) = true) :
    ∃ m0, alistGet (keyOf x) (getMeasurer x now s).1.registry =
        some (getMeasurer x now s).2 ∧
      alistGet (getMeasurer x now s).2 (getMeasurer x now s).1.store = some m0 ∧
      m0.splittimes = priorSplits s (keyOf x) := by
  cases hreg : alistGet (keyOf x) s.registry with
  | some i =>
    rw [wfAtKey, hreg] at hwf
    obtain ⟨m0, hm0⟩ := Option.isSome_iff_exists.mp hwf
    refine ⟨m0, ?_⟩
    rw [getMeasurer_found x now s i hreg]
    simp [hreg, hm0, priorSplits, lookupLedger]
  | none =>
    obtain ⟨hlk, hid, _, hrg, hst⟩ := getMeasurer_create x now s hreg
    refine ⟨⟨autoName x s.latestId, now, []⟩, ?_, ?_, ?_⟩
    · rw [hrg, hid]
    · rw [hid, hst]
    · simp [priorSplits, lookupLedger, hreg]

/-- `record_split` on a heap object: the object's splittime list is extended
in place by the new record; nothing else changes. -/
theorem recordSplitOn_some (i : Nat) (ev : PyStr) (now : Datetime) (s : State)
    (m0 : TimeMeasurer) (hm : alistGet i s.store = some m0) :
    recordSplitOn i (some ev) now s =
      State.mk s.latestId
        (alistSet i
          (TimeMeasurer.mk m0.name m0.start
            (m0.splittimes ++ [⟨some ev, dtSub now m0.start⟩]))
          s.store)
        s.registry := by
  rw [recordSplitOn, hm]
  rfl

/-! ## Sample data for witnesses -/

/-- A concrete valid datetime used as a measurement start in witnesses. -/
def dtA : Datetime := ⟨2020, 1, 1, 0, 0, 0, 0⟩

/-- A later concrete datetime. -/
def dtB : Datetime := ⟨2020, 1, 1, 0, 0, 1, 0⟩

/-- A still later concrete datetime. -/
def dtC : Datetime := ⟨2020, 1, 1, 0, 0, 2, 500000⟩

/-- A concrete measurer with two recorded splits. -/
def sampleMeasurer : TimeMeasurer :=
  ⟨PyKey.str "test".toList, dtA, [⟨some ['a'], 5⟩, ⟨some ['b'], 12⟩]⟩

/-! ## Claim theorems -/

/-- C1: `__add__` and `__iadd__` both return `list.extend`'s result, the
Python `None` value, instead of a `TimeMeasurer`: the concatenated copy
built inside `__add__` is discarded, and `a += b` rebinds `a` to `None`
even though `a`'s splittime list was extended in place. -/
theorem claim1_concat_returns_none (a b : TimeMeasurer) :
    addMeasurer a b = none ∧ (iaddMeasurer a b).2 = none ∧
    (iaddMeasurer a b).1.splittimes = a.splittimes ++ b.splittimes :=
  ⟨rfl, rfl, rfl⟩

/-- C3: `record_split` with the event argument omitted does not store
`None`: on a ledger with no prior splits it stores the stringified index
`"0"` (the repository's own test `test_record_noevent` asserts the stored
event is `None`). -/
theorem claim3_default_event_is_index :
    (recordSplit ⟨PyKey.str "t".toList, dtA, []⟩ none dtB).2.event = some ['0'] ∧
    (recordSplit ⟨PyKey.str "t".toList, dtA, []⟩ none dtB).2.event ≠ none := by
  decide

/-- C4: `get_laptime` yields exactly as many laptimes as there are
splittimes, in insertion order; the lap at index 0 is the splittime itself
(baseline zero), the lap at index `j+1` is the difference of consecutive
splittimes, and the cumulative sum of the first `i+1` laps equals the
`i`-th splittime. -/
theorem claim4_get_laptime_spec (m : TimeMeasurer) (i : Nat) (sp : Splittime)
    (h : m.splittimes.get? i = some sp) :
    (getLaptime m).length = m.splittimes.length ∧
    (i = 0 → (getLaptime m).get? i = some ⟨sp.event, sp.time⟩) ∧
    (∀ j q, i = j + 1 → m.splittimes.get? j = some q →
      (getLaptime m).get? i = some ⟨sp.event, sp.time - q.time⟩) ∧
    (((getLaptime m).take (i + 1)).map Laptime.time).sum = sp.time := by
  refine ⟨laptimesFrom_length 0 m.splittimes, ?_, ?_, ?_⟩
  · intro h0
    subst h0
    have := laptimesFrom_get?_zero 0 m.splittimes sp h
    simpa [getLaptime] using this
  · intro j q hij hq
    subst hij
    exact laptimesFrom_get?_succ 0 m.splittimes j sp q hq h
  · have := laptimesFrom_take_sum 0 m.splittimes i sp h
    simpa [getLaptime] using this

/-- Witness for C4 at a concrete two-split ledger and index 1. -/
theorem claim4_witness :
    sampleMeasurer.splittimes.get? 1 = some ⟨some ['b'], 12⟩ ∧
    ((getLaptime sampleMeasurer).length = sampleMeasurer.splittimes.length ∧
     (1 = 0 → (getLaptime sampleMeasurer).get? 1 = some ⟨some ['b'], (12 : Int)⟩) ∧
     (∀ j q, 1 = j + 1 → sampleMeasurer.splittimes.get? j = some q →
       (getLaptime sampleMeasurer).get? 1 = some ⟨some ['b'], (12 : Int) - q.time⟩) ∧
     (((getLaptime sampleMeasurer).take 2).map Laptime.time).sum = (12 : Int)) :=
  ⟨by decide, claim4_get_laptime_spec sampleMeasurer 1 ⟨some ['b'], 12⟩ (by decide)⟩

/-- C6: a second `get_measurer` for the same name with no intervening pop
returns the same object id and leaves the whole state (hence the ledger and
its start) unchanged: `get_or_create` is idempotent on present names. -/
theorem claim6_get_or_create_idempotent (s : State) (x : Option PyStr)
    (now1 now2 : Datetime) :
    getMeasurer x now2 (getMeasurer x now1 s).1 =
      ((getMeasurer x now1 s).1, (getMeasurer x now1 s).2) ∧
    lookupLedger (getMeasurer x now2 (getMeasurer x now1 s).1).1 (keyOf x) =
      lookupLedger (getMeasurer x now1 s).1 (keyOf x) := by
  have hmain : getMeasurer x now2 (getMeasurer x now1 s).1 =
      ((getMeasurer x now1 s).1, (getMeasurer x now1 s).2) := by
    cases hreg : alistGet (keyOf x) s.registry with
    | some i => simp [getMeasurer, hreg]
    | none => simp [getMeasurer, hreg, initMeasurer, alistGet_set_self]
  exact ⟨hmain, by rw [hmain]⟩

/-- C7: `pop` of a registered name returns its ledger and frees the name; a
further `pop` of the now-absent name returns `None` without error and
leaves the state unchanged; a subsequent `get_or_create` builds a fresh
empty ledger whose start is the (new) current instant, hence differs from
the popped ledger's start under an advancing clock. -/
theorem claim7_pop_semantics (s : State) (x : Option PyStr) (i : Nat)
    (mOld : TimeMeasurer) (now' : Datetime)
    (hpres : alistGet (keyOf x) s.registry = some i)
    (hold : alistGet i s.store = some mOld)
    (hfresh : now' ≠ mOld.start) :
    (popMeasurer x s).2 = some i ∧
    alistGet (keyOf x) (popMeasurer x s).1.registry = none ∧
    popMeasurer x (popMeasurer x s).1 = ((popMeasurer x s).1, none) ∧
    (∃ mNew, lookupLedger (getMeasurer x now' (popMeasurer x s).1).1 (keyOf x) =
        some mNew ∧
      mNew.start = now' ∧ mNew.splittimes = [] ∧ mNew.start ≠ mOld.start) := by
  refine ⟨by simp [popMeasurer, hpres], by simp [popMeasurer, alistGet_remove_self], ?_, ?_⟩
  · have hnone : alistGet (keyOf x) (popMeasurer x s).1.registry = none := by
      simp [popMeasurer, alistGet_remove_self]
    simp only [popMeasurer] at hnone ⊢
    rw [alistRemove_not_found _ _ hnone, hnone]
  · have hnone : alistGet (keyOf x) (popMeasurer x s).1.registry = none := by
      simp [popMeasurer, alistGet_remove_self]
    refine ⟨⟨autoName x s.latestId, now', []⟩, ?_, rfl, rfl, hfresh⟩
    exact (getMeasurer_create x now' (popMeasurer x s).1 hnone).1

/-- Witness for C7 at a concrete one-entry registry. -/
theorem claim7_witness :
    alistGet (keyOf (some ['x']))
        (⟨1, [(0, sampleMeasurer)], [(keyOf (some ['x']), 0)]⟩ : State).registry = some 0 ∧
    alistGet 0 (⟨1, [(0, sampleMeasurer)], [(keyOf (some ['x']), 0)]⟩ : State).store =
      some sampleMeasurer ∧
    dtC ≠ sampleMeasurer.start ∧
    ((popMeasurer (some ['x']) ⟨1, [(0, sampleMeasurer)], [(keyOf (some ['x']), 0)]⟩).2 =
      some 0 ∧
     alistGet (keyOf (some ['x']))
       (popMeasurer (some ['x']) ⟨1, [(0, sampleMeasurer)], [(keyOf (some ['x']), 0)]⟩).1.registry =
       none ∧
     popMeasurer (some ['x'])
       (popMeasurer (some ['x']) ⟨1, [(0, sampleMeasurer)], [(keyOf (some ['x']), 0)]⟩).1 =
       ((popMeasurer (some ['x']) ⟨1, [(0, sampleMeasurer)], [(keyOf (some ['x']), 0)]⟩).1, none) ∧
     (∃ mNew, lookupLedger
         (getMeasurer (some ['x']) dtC
           (popMeasurer (some ['x']) ⟨1, [(0, sampleMeasurer)], [(keyOf (some ['x']), 0)]⟩).1).1
         (keyOf (some ['x'])) = some mNew ∧
       mNew.start = dtC ∧ mNew.splittimes = [] ∧ mNew.start ≠ sampleMeasurer.start)) :=
  ⟨by decide, by decide, by decide,
    claim7_pop_semantics ⟨1, [(0, sampleMeasurer)], [(keyOf (some ['x']), 0)]⟩
      (some ['x']) 0 sampleMeasurer dtC (by decide) (by decide) (by decide)⟩

/-- C8: on a ledger with no recorded splits, `end` evaluates to `start`
(the `IndexError` branch) and `totaltime` to the zero duration; both are
total accesses. -/
theorem claim8_empty_ledger (m : TimeMeasurer) (h : m.splittimes = []) :
    endTime m = m.start ∧ totaltime m = 0 := by
  have he : endTime m = m.start := by
    rw [endTime, h]
    rfl
  refine ⟨he, ?_⟩
  rw [totaltime, he, dtSub]
  ring

/-- Witness for C8 at a concrete empty ledger. -/
theorem claim8_witness :
    (⟨PyKey.str "t".toList, dtA, []⟩ : TimeMeasurer).splittimes = [] ∧
    (endTime ⟨PyKey.str "t".toList, dtA, []⟩ =
      (⟨PyKey.str "t".toList, dtA, []⟩ : TimeMeasurer).start ∧
     totaltime ⟨PyKey.str "t".toList, dtA, []⟩ = 0) :=
  ⟨rfl, claim8_empty_ledger ⟨PyKey.str "t".toList, dtA, []⟩ rfl⟩

/-- Recording two splits in a row on the same heap object appends the two
records in order and leaves the registry untouched. -/
theorem recordSplitOn_twice (i : Nat) (e1 e2 : PyStr) (now1 now2 : Datetime)
    (s : State) (m0 : TimeMeasurer) (hm : alistGet i s.store = some m0) :
    alistGet i (recordSplitOn i (some e2) now2
        (recordSplitOn i (some e1) now1 s)).store =
      some (TimeMeasurer.mk m0.name m0.start
        (m0.splittimes ++ [⟨some e1, dtSub now1 m0.start⟩,
          ⟨some e2, dtSub now2 m0.start⟩])) ∧
    (recordSplitOn i (some e2) now2
        (recordSplitOn i (some e1) now1 s)).registry = s.registry := by
  rw [recordSplitOn_some i e1 now1 s m0 hm]
  have hm1 : alistGet i (alistSet i
      (TimeMeasurer.mk m0.name m0.start
        (m0.splittimes ++ [⟨some e1, dtSub now1 m0.start⟩])) s.store) =
      some (TimeMeasurer.mk m0.name m0.start
        (m0.splittimes ++ [⟨some e1, dtSub now1 m0.start⟩])) :=
    alistGet_set_self i _ s.store
  rw [recordSplitOn_some i e2 now2 _ _ hm1]
  refine ⟨?_, rfl⟩
  rw [alistGet_set_self]
  simp

/-- C5: one invocation of a `time_record(name)`-wrapped callable that
returns normally passes the return value through unchanged and appends
exactly two splittime records to the registry ledger named `name` — first
the `qualname_start` entry (timestamped before the call), then the
`qualname_end` entry (timestamped after it). -/
theorem claim5_time_record_normal {E B : Type} (name : Option PyStr) (qual : PyStr)
    (v : B) (now0 now1 now2 : Datetime) (s : State)
    (hwf : wfAtKey s (keyOf name) = true) :
    (timeRecordCall name qual (Except.ok v : Except E B) now0 now1 now2 s).2 =
      Except.ok v ∧
    ∃ m', lookupLedger
        (timeRecordCall name qual (Except.ok v : Except E B) now0 now1 now2 s).1
        (keyOf name) = some m' ∧
      m'.splittimes = priorSplits s (keyOf name) ++
        [⟨some (qual ++ "_start".toList), dtSub now1 m'.start⟩,
         ⟨some (qual ++ "_end".toList), dtSub now2 m'.start⟩] := by
  obtain ⟨m0, hreg, hst, hprior⟩ := getMeasurer_spec name now0 s hwf
  have htw := recordSplitOn_twice (getMeasurer name now0 s).2
    (qual ++ "_start".toList) (qual ++ "_end".toList) now1 now2
    (getMeasurer name now0 s).1 m0 hst
  have hstate : (timeRecordCall name qual (Except.ok v : Except E B)
      now0 now1 now2 s).1 =
      recordSplitOn (getMeasurer name now0 s).2 (some (qual ++ "_end".toList)) now2
        (recordSplitOn (getMeasurer name now0 s).2
          (some (qual ++ "_start".toList)) now1 (getMeasurer name now0 s).1) := rfl
  refine ⟨rfl, ⟨TimeMeasurer.mk m0.name m0.start
    (m0.splittimes ++ [⟨some (qual ++ "_start".toList), dtSub now1 m0.start⟩,
      ⟨some (qual ++ "_end".toList), dtSub now2 m0.start⟩]), ?_, ?_⟩⟩
  · rw [hstate, lookupLedger, htw.2, hreg]
    exact htw.1
  · rw [← hprior]

/-- C9: when the wrapped callable raises, the wrapper has already appended
the single `qualname_start` record, the `qualname_end` record is never
written, and the exception propagates unchanged. -/
theorem claim9_time_record_exception {E B : Type} (name : Option PyStr)
    (qual : PyStr) (err : E) (now0 now1 now2 : Datetime) (s : State)
    (hwf : wfAtKey s (keyOf name) = true) :
    (timeRecordCall name qual (Except.error err : Except E B) now0 now1 now2 s).2 =
      Except.error err ∧
    ∃ m', lookupLedger
        (timeRecordCall name qual (Except.error err : Except E B) now0 now1 now2 s).1
        (keyOf name) = some m' ∧
      m'.splittimes = priorSplits s (keyOf name) ++
        [⟨some (qual ++ "_start".toList), dtSub now1 m'.start⟩] := by
  obtain ⟨m0, hreg, hst, hprior⟩ := getMeasurer_spec name now0 s hwf
  have hone := recordSplitOn_some (getMeasurer name now0 s).2
    (qual ++ "_start".toList) now1 (getMeasurer name now0 s).1 m0 hst
  have hstate : (timeRecordCall name qual (Except.error err : Except E B)
      now0 now1 now2 s).1 =
      recordSplitOn (getMeasurer name now0 s).2
        (some (qual ++ "_start".toList)) now1 (getMeasurer name now0 s).1 := rfl
  refine ⟨rfl, ⟨TimeMeasurer.mk m0.name m0.start
    (m0.splittimes ++ [⟨some (qual ++ "_start".toList), dtSub now1 m0.start⟩]),
    ?_, ?_⟩⟩
  · rw [hstate, hone, lookupLedger]
    dsimp only
    rw [hreg]
    exact alistGet_set_self _ _ _
  · rw [← hprior]

/-- C10: `from_csv` does not build an independent ledger.  It fetches
(creating on first use) the registry ledger under the `None` key and
overwrites its `start`/`splittimes` in place: two successive calls return
the same object id, still registered under `None`, and after the second
call the heap object holds the second file's contents — the first call's
are gone. -/
theorem claim10_from_csv_registry (s : State) (rows1 rows2 : List (List PyStr))
    (now1 now2 : Datetime) (st1 st2 : PyStr) (d1 d2 : Datetime)
    (ev1 ev2 : List Splittime)
    (h1 : fromCsvScan rows1 = some (st1, ev1)) (hi1 : fromIso st1 = some d1)
    (h2 : fromCsvScan rows2 = some (st2, ev2)) (hi2 : fromIso st2 = some d2)
    (hwf : wfAtKey s PyKey.pynone = true) :
    ∃ i nm,
      (fromCsvOp rows1 now1 s).2 = some i ∧
      alistGet PyKey.pynone (fromCsvOp rows1 now1 s).1.registry = some i ∧
      alistGet i (fromCsvOp rows1 now1 s).1.store = some ⟨nm, d1, ev1⟩ ∧
      (fromCsvOp rows2 now2 (fromCsvOp rows1 now1 s).1).2 = some i ∧
      alistGet i (fromCsvOp rows2 now2 (fromCsvOp rows1 now1 s).1).1.store =
        some ⟨nm, d2, ev2⟩ := by
  obtain ⟨m0, hreg, hst, hprior⟩ := getMeasurer_spec none now1 s hwf
  have hop1 : fromCsvOp rows1 now1 s =
      (State.mk (getMeasurer none now1 s).1.latestId
        (alistSet (getMeasurer none now1 s).2
          (TimeMeasurer.mk m0.name d1 ev1) (getMeasurer none now1 s).1.store)
        (getMeasurer none now1 s).1.registry,
       some (getMeasurer none now1 s).2) := by
    rw [fromCsvOp, h1]
    dsimp only
    rw [hi1]
    dsimp only
    rw [hst]
  have hregA : alistGet PyKey.pynone (fromCsvOp rows1 now1 s).1.registry =
      some (getMeasurer none now1 s).2 := by
    rw [hop1]
    exact hreg
  have hstA : alistGet (getMeasurer none now1 s).2
      (fromCsvOp rows1 now1 s).1.store =
      some (TimeMeasurer.mk m0.name d1 ev1) := by
    rw [hop1]
    exact alistGet_set_self _ _ _
  have hfound : getMeasurer none now2 (fromCsvOp rows1 now1 s).1 =
      ((fromCsvOp rows1 now1 s).1, (getMeasurer none now1 s).2) :=
    getMeasurer_found none now2 _ _ hregA
  have hop2 : fromCsvOp rows2 now2 (fromCsvOp rows1 now1 s).1 =
      (State.mk (fromCsvOp rows1 now1 s).1.latestId
        (alistSet (getMeasurer none now1 s).2
          (TimeMeasurer.mk m0.name d2 ev2) (fromCsvOp rows1 now1 s).1.store)
        (fromCsvOp rows1 now1 s).1.registry,
       some (getMeasurer none now1 s).2) := by
    rw [fromCsvOp, h2, hfound]
    dsimp only
    rw [hi2]
    dsimp only
    rw [hstA]
  refine ⟨(getMeasurer none now1 s).2, m0.name, ?_, hregA, hstA, ?_, ?_⟩
  · rw [hop1]
  · rw [hop2]
  · rw [hop2]
    exact alistGet_set_self _ _ _

/-- C2 (amended): round trip of the serialization.  For any ledger whose
start is a real datetime and whose recorded splits carry event names and
nonnegative durations below one day, parsing the rows `to_csv` writes
recovers `start` exactly and the splittime sequence exactly (event names,
order, and microsecond-resolution times). -/
theorem claim2_roundtrip_under_one_day (m : TimeMeasurer)
    (hstart : validDatetime m.start)
    (hev : ∀ sp ∈ m.splittimes, Option.isSome sp.event = true)
    (ht : ∀ sp ∈ m.splittimes, 0 ≤ sp.time ∧ sp.time < 86400000000) :
    fromCsvData (toCsvRows m) = some (m.start, m.splittimes) :=
  fromCsvData_toCsvRows m hstart hev ht

/-- Witness for C2 at a concrete two-split ledger. -/
theorem claim2_witness :
    validDatetime sampleMeasurer.start ∧
    (∀ sp ∈ sampleMeasurer.splittimes, Option.isSome sp.event = true) ∧
    (∀ sp ∈ sampleMeasurer.splittimes, 0 ≤ sp.time ∧ sp.time < 86400000000) ∧
    fromCsvData (toCsvRows sampleMeasurer) =
      some (sampleMeasurer.start, sampleMeasurer.splittimes) :=
  ⟨by decide, by decide, by decide,
    claim2_roundtrip_under_one_day sampleMeasurer (by decide) (by decide) (by decide)⟩

/-- A ledger with a single recorded split of exactly one day. -/
def dayMeasurer : TimeMeasurer :=
  ⟨PyKey.str "t".toList, dtA, [⟨some ['a'], 86400000000⟩]⟩

/-- C2 counterexample to the claim as stated: for a ledger whose recorded
split is one day, `str(timedelta)` writes `"1 day, 0:00:00"`, `int("1 day,
0")` raises `ValueError` inside `from_csv`, and the round trip yields no
ledger at all instead of one preserving start and splittimes. -/
theorem claim2_counterexample : fromCsvData (toCsvRows dayMeasurer) = none := by
  decide

/-- The empty process state (fresh interpreter). -/
def emptyState : State := ⟨0, [], []⟩

/-- Witness for C5 at a concrete empty registry. -/
theorem claim5_witness :
    wfAtKey emptyState (keyOf (some ['t'])) = true ∧
    ((timeRecordCall (some ['t']) ['f'] (Except.ok 7 : Except Unit Nat)
        dtA dtB dtC emptyState).2 = Except.ok 7 ∧
     ∃ m', lookupLedger (timeRecordCall (some ['t']) ['f']
         (Except.ok 7 : Except Unit Nat) dtA dtB dtC emptyState).1
         (keyOf (some ['t'])) = some m' ∧
       m'.splittimes = priorSplits emptyState (keyOf (some ['t'])) ++
         [⟨some (['f'] ++ "_start".toList), dtSub dtB m'.start⟩,
          ⟨some (['f'] ++ "_end".toList), dtSub dtC m'.start⟩]) :=
  ⟨by decide, @claim5_time_record_normal Unit Nat (some ['t']) ['f'] 7
    dtA dtB dtC emptyState (by decide)⟩

/-- Witness for C9 at a concrete empty registry. -/
theorem claim9_witness :
    wfAtKey emptyState (keyOf (some ['u'])) = true ∧
    ((timeRecordCall (some ['u']) ['g'] (Except.error 3 : Except Nat Unit)
        dtA dtB dtC emptyState).2 = Except.error 3 ∧
     ∃ m', lookupLedger (timeRecordCall (some ['u']) ['g']
         (Except.error 3 : Except Nat Unit) dtA dtB dtC emptyState).1
         (keyOf (some ['u'])) = some m' ∧
       m'.splittimes = priorSplits emptyState (keyOf (some ['u'])) ++
         [⟨some (['g'] ++ "_start".toList), dtSub dtB m'.start⟩]) :=
  ⟨by decide, @claim9_time_record_exception Nat Unit (some ['u']) ['g'] 3
    dtA dtB dtC emptyState (by decide)⟩

/-- A minimal `to_csv`-format row list: header and start row, no splits. -/
def rowsA : List (List PyStr) :=
  [headerRow, [ROW_START_EVT, "1970-01-01 00:00:00".toList, "-".toList, "-".toList]]

/-- A second minimal row list with a different start instant. -/
def rowsB : List (List PyStr) :=
  [headerRow, [ROW_START_EVT, "1971-02-03 04:05:06.000007".toList, "-".toList, "-".toList]]

/-- Witness for C10 at two concrete row lists and the empty registry. -/
theorem claim10_witness :
    fromCsvScan rowsA = some ("1970-01-01 00:00:00".toList, []) ∧
    fromIso "1970-01-01 00:00:00".toList = some ⟨1970, 1, 1, 0, 0, 0, 0⟩ ∧
    fromCsvScan rowsB = some ("1971-02-03 04:05:06.000007".toList, []) ∧
    fromIso "1971-02-03 04:05:06.000007".toList = some ⟨1971, 2, 3, 4, 5, 6, 7⟩ ∧
    wfAtKey emptyState PyKey.pynone = true ∧
    (∃ i nm,
      (fromCsvOp rowsA dtA emptyState).2 = some i ∧
      alistGet PyKey.pynone (fromCsvOp rowsA dtA emptyState).1.registry = some i ∧
      alistGet i (fromCsvOp rowsA dtA emptyState).1.store =
        some ⟨nm, ⟨1970, 1, 1, 0, 0, 0, 0⟩, []⟩ ∧
      (fromCsvOp rowsB dtB (fromCsvOp rowsA dtA emptyState).1).2 = some i ∧
      alistGet i (fromCsvOp rowsB dtB (fromCsvOp rowsA dtA emptyState).1).1.store =
        some ⟨nm, ⟨1971, 2, 3, 4, 5, 6, 7⟩, []⟩) :=
  ⟨by decide, by decide, by decide, by decide, by decide,
    claim10_from_csv_registry emptyState rowsA rowsB dtA dtB
      "1970-01-01 00:00:00".toList "1971-02-03 04:05:06.000007".toList
      ⟨1970, 1, 1, 0, 0, 0, 0⟩ ⟨1971, 2, 3, 4, 5, 6, 7⟩ [] []
      (by decide) (by decide) (by decide) (by decide) (by decide)⟩

end DebugLog
